import Mathlib

/-!
Verification of the Venmito data-merging core (`src/data/merger.py`).

The pandas DataFrames are shallowly embedded as Lean lists of typed rows;
floating-point monetary values are modelled as rationals, and the IEEE
outcomes of float division (needed for the unguarded `average_price`
division) are modelled by an explicit value type `FVal`.  Column presence,
which matters for the schema-completion and column-dropping behaviour of
the source, is modelled by explicit Boolean flags or column lists on the
frame structures where a claim depends on it.
-/

namespace Venmito

/-! ### Generic list helpers mirroring pandas primitives -/

/-- Keep the first row of every key and drop every later row whose key
already appeared.  This is `DataFrame.drop_duplicates(subset=[key],
keep='first')`; the equivalent "recurse on the de-duplicated tail" unfolding
used by the proofs is `dedupByKey_cons` below. -/
def dedupByKey {α β : Type} [DecidableEq β] (key : α → β) : List α → List α
  | [] => []
  | x :: xs => x :: (dedupByKey key xs).filter (fun y => key y ≠ key x)

/-- Keep the first occurrence of every element (special case of `dedupByKey`). -/
def firstDedup {β : Type} [DecidableEq β] (l : List β) : List β :=
  dedupByKey id l

theorem dedupByKey_nil {α β : Type} [DecidableEq β] (key : α → β) :
    dedupByKey key [] = [] := rfl

/-- Filtering on a key predicate commutes with key-based deduplication. -/
theorem filter_key_dedupByKey {α β : Type} [DecidableEq β] (key : α → β)
    (q : β → Bool) (l : List α) :
    (dedupByKey key l).filter (fun a => q (key a))
      = dedupByKey key (l.filter (fun a => q (key a))) := by
  induction l with
  | nil => rfl
  | cons x xs ih =>
    by_cases hx : q (key x) = true
    · rw [dedupByKey, List.filter_cons_of_pos (by simpa using hx),
        List.filter_cons_of_pos (by simpa using hx), dedupByKey, ← ih,
        List.filter_filter, List.filter_filter]
      refine congrArg _ (List.filter_congr (fun a _ => ?_))
      rw [Bool.and_comm]
    · rw [dedupByKey, List.filter_cons_of_neg (by simpa using hx),
        List.filter_cons_of_neg (by simpa using hx), ← ih, List.filter_filter]
      refine List.filter_congr (fun a _ => ?_)
      by_cases hk : key a = key x
      · have : q (key a) = false := by rw [hk]; exact Bool.eq_false_iff.2 hx
        simp [this]
      · simp [hk]

theorem dedupByKey_cons {α β : Type} [DecidableEq β] (key : α → β) (x : α) (xs : List α) :
    dedupByKey key (x :: xs)
      = x :: dedupByKey key (xs.filter (fun y => key y ≠ key x)) := by
  rw [dedupByKey]
  congr 1
  exact filter_key_dedupByKey key (fun b => decide (b ≠ key x)) xs

theorem dedupByKey_map_key {α β : Type} [DecidableEq β] (key : α → β) (l : List α) :
    (dedupByKey key l).map key = dedupByKey id (l.map key) := by
  induction l with
  | nil => rfl
  | cons x xs ih =>
    rw [List.map_cons, dedupByKey, dedupByKey, List.map_cons, ← ih, List.filter_map]
    rfl

theorem mem_of_mem_dedupByKey {α β : Type} [DecidableEq β] (key : α → β) (l : List α)
    (a : α) (ha : a ∈ dedupByKey key l) : a ∈ l := by
  induction l with
  | nil => simp [dedupByKey] at ha
  | cons x xs ih =>
    rw [dedupByKey] at ha
    rcases List.mem_cons.1 ha with h | h
    · exact h ▸ List.mem_cons_self _ _
    · exact List.mem_cons_of_mem _ (ih (List.mem_of_mem_filter h))

theorem mem_firstDedup {β : Type} [DecidableEq β] (b : β) (l : List β) :
    b ∈ firstDedup l ↔ b ∈ l := by
  unfold firstDedup
  constructor
  · exact mem_of_mem_dedupByKey id l b
  · intro hb
    induction l with
    | nil => simp at hb
    | cons x xs ih =>
      rw [dedupByKey]
      rcases List.mem_cons.1 hb with h | h
      · exact h ▸ List.mem_cons_self _ _
      · by_cases hbx : b = x
        · exact hbx ▸ List.mem_cons_self _ _
        · exact List.mem_cons_of_mem _
            (List.mem_filter.2 ⟨ih h, by simpa using hbx⟩)

theorem nodup_map_key_dedupByKey {α β : Type} [DecidableEq β] (key : α → β) (l : List α) :
    ((dedupByKey key l).map key).Nodup := by
  induction l with
  | nil => simp [dedupByKey]
  | cons x xs ih =>
    rw [dedupByKey, List.map_cons]
    refine List.nodup_cons.2 ⟨?_, ?_⟩
    · intro hmem
      rcases List.mem_map.1 hmem with ⟨a, ha, hkey⟩
      have := List.of_mem_filter ha
      simp only [decide_eq_true_eq] at this
      exact this hkey
    · exact ih.sublist (List.Sublist.map key (List.filter_sublist _))

theorem nodup_firstDedup {β : Type} [DecidableEq β] (l : List β) :
    (firstDedup l).Nodup := by
  have := nodup_map_key_dedupByKey (id : β → β) l
  simpa [firstDedup] using this

theorem length_firstDedup {β : Type} [DecidableEq β] (l : List β) :
    (firstDedup l).length = l.dedup.length := by
  have h1 : (firstDedup l).toFinset = l.toFinset := by
    apply Finset.ext
    intro b
    simp [List.mem_toFinset, mem_firstDedup]
  calc (firstDedup l).length = (firstDedup l).toFinset.card :=
        (List.toFinset_card_of_nodup (nodup_firstDedup l)).symm
    _ = l.toFinset.card := by rw [h1]
    _ = l.dedup.length := List.card_toFinset l

theorem length_dedupByKey {α β : Type} [DecidableEq β] (key : α → β) (l : List α) :
    (dedupByKey key l).length = (l.map key).dedup.length := by
  calc (dedupByKey key l).length = ((dedupByKey key l).map key).length :=
        (List.length_map _ _).symm
    _ = (firstDedup (l.map key)).length := by rw [dedupByKey_map_key]; rfl
    _ = (l.map key).dedup.length := length_firstDedup _

theorem dedupByKey_append_left {α β : Type} [DecidableEq β] (key : α → β)
    (P S : List α) (hP : (P.map key).Nodup) :
    dedupByKey key (P ++ S)
      = P ++ dedupByKey key (S.filter (fun a => decide (key a ∉ P.map key))) := by
  induction P generalizing S with
  | nil =>
    simp only [List.nil_append]
    congr 1
    rw [List.filter_eq_self.2]
    intro a _
    simp
  | cons x P' ih =>
    rw [List.map_cons, List.nodup_cons] at hP
    rw [List.cons_append, dedupByKey_cons, List.filter_append,
      List.filter_eq_self.2 (fun a ha => by
        simp only [decide_eq_true_eq]
        intro hk
        exact hP.1 (hk ▸ List.mem_map_of_mem key ha)),
      ih _ hP.2, List.filter_filter, List.cons_append]
    congr 2
    refine congrArg _ (List.filter_congr (fun a _ => ?_))
    by_cases h1 : key a = key x <;> by_cases h2 : key a ∈ List.map key P' <;>
      simp [h1, h2, List.mem_cons]

theorem find?_dedupByKey_of_mem {α β : Type} [DecidableEq β] (key : α → β)
    (P : List α) (hP : (P.map key).Nodup) (a : α) (ha : a ∈ P) :
    P.find? (fun b => key b == key a) = some a := by
  induction P with
  | nil => simp at ha
  | cons x P' ih =>
    rw [List.map_cons, List.nodup_cons] at hP
    by_cases hx : key x = key a
    · have hax : a = x := by
        rcases List.mem_cons.1 ha with h | h
        · exact h
        · exact absurd (hx ▸ List.mem_map_of_mem key h) hP.1
      rw [List.find?_cons_of_pos _ (by simp [hx])]
      exact congrArg some hax.symm
    · have ha' : a ∈ P' := by
        rcases List.mem_cons.1 ha with h | h
        · exact absurd (congrArg key h.symm) hx
        · exact h
      rw [List.find?_cons_of_neg _ (by simp [hx])]
      exact ih hP.2 ha'

/-! ### Person data model (`src/data/merger.py`, people tables)

A cell value is either null, a scalar string, or a list of strings (the
`devices` column may hold a Python list).  `user_id` is numeric and
non-null in the person registries. -/

inductive Val : Type
  | vnone : Val
  | vstr : String → Val
  | vlist : List String → Val
deriving DecidableEq, Repr

/-- Lines 674-676: a list-valued cell is converted to a comma-separated
string (`', '.join(map(str, x))`); any other cell is left unchanged. -/
def normalizeVal : Val → Val
  | .vlist xs => .vstr (String.intercalate ", " xs)
  | v => v

/-- One row of a person registry over the declared common schema
(lines 687-690).  String-typed columns are `Option String` (`none` = null);
`devices` may additionally hold a list value. -/
structure PersonRow where
  user_id : Nat
  first_name : Option String
  last_name : Option String
  email : Option String
  phone : Option String
  city : Option String
  country : Option String
  devices : Val
deriving DecidableEq, Repr

/-- Lines 671-676 applied to one row: the list-to-string conversion runs over
every column; only `devices` can hold a list in this typed model, so the
other columns are unchanged by it. -/
def normalizeRow (r : PersonRow) : PersonRow :=
  { r with devices := normalizeVal r.devices }

/-- Lines 700-705 of `MainDataMerger.merge`, for inputs that carry the
declared common schema (the completion step, lines 693-698, only adds
all-null columns and is the identity on such inputs):
`pd.concat([people_json_df, people_yml_df])` followed by
`drop_duplicates(subset=['user_id'], keep='first')`, after the list-value
normalization of lines 671-676. -/
def mainPeopleCombine (people_json people_yml : List PersonRow) : List PersonRow :=
  dedupByKey PersonRow.user_id
    (people_json.map normalizeRow ++ people_yml.map normalizeRow)

/-- Row lookup by `user_id` (first matching row, as a keyed selection). -/
def findById (l : List PersonRow) (u : Nat) : Option PersonRow :=
  l.find? (fun r => r.user_id == u)

theorem user_id_normalizeRow (r : PersonRow) :
    (normalizeRow r).user_id = r.user_id := rfl

theorem map_user_id_map_normalizeRow (l : List PersonRow) :
    (l.map normalizeRow).map PersonRow.user_id = l.map PersonRow.user_id := by
  induction l with
  | nil => rfl
  | cons x xs ih => simp [ih, user_id_normalizeRow]

theorem map_uid_filter_notin (s : List PersonRow) (m : List Nat) :
    ((s.map normalizeRow).filter
        (fun a => decide (a.user_id ∉ m))).map PersonRow.user_id
      = (s.map PersonRow.user_id).filter (fun u => decide (u ∉ m)) := by
  induction s with
  | nil => rfl
  | cons x xs ih =>
    simp only [List.map_cons, List.filter_cons, user_id_normalizeRow]
    by_cases h : x.user_id ∈ m
    · simpa [h, user_id_normalizeRow] using ih
    · simpa [h, user_id_normalizeRow] using ih

/-- C2: for every pair of person tables (primary, secondary) whose primary
table has unique `user_id`s, the identity reconciliation performed by
`MainDataMerger.merge` (concat + `drop_duplicates(keep='first')`) returns a
table with `len(primary) + |secondary-only user_ids|` rows, and every
`user_id` present in primary appears in the output carrying primary's
(list-normalized) field values — secondary's conflicting fields are
discarded wholesale, never merged field-by-field. -/
theorem identity_reconciliation_primary_wins (p s : List PersonRow)
    (hp : (p.map PersonRow.user_id).Nodup) :
    (mainPeopleCombine p s).length
      = p.length
        + ((s.map PersonRow.user_id).filter
            (fun u => decide (u ∉ p.map PersonRow.user_id))).dedup.length
    ∧ ∀ r ∈ p, findById (mainPeopleCombine p s) r.user_id = some (normalizeRow r) := by
  have hPk : ((p.map normalizeRow).map PersonRow.user_id).Nodup := by
    rw [map_user_id_map_normalizeRow]; exact hp
  have hsplit : mainPeopleCombine p s
      = p.map normalizeRow
        ++ dedupByKey PersonRow.user_id
            ((s.map normalizeRow).filter
              (fun a => decide (a.user_id ∉ (p.map normalizeRow).map PersonRow.user_id))) :=
    dedupByKey_append_left PersonRow.user_id _ _ hPk
  constructor
  · rw [hsplit, List.length_append, List.length_map]
    congr 1
    rw [length_dedupByKey, map_user_id_map_normalizeRow, map_uid_filter_notin]
  · intro r hr
    have hmem : normalizeRow r ∈ p.map normalizeRow := List.mem_map_of_mem normalizeRow hr
    have hfind := find?_dedupByKey_of_mem PersonRow.user_id _ hPk _ hmem
    simp only [user_id_normalizeRow] at hfind
    unfold findById
    rw [hsplit, List.find?_append, hfind]
    rfl

/-- Witness for the identity-reconciliation theorem: primary has
`user_id=1, city="A"`, secondary has `user_id=1, city="B"` and a
secondary-only `user_id=2`; the output has `1 + 1` rows and city `"A"`
for user 1. -/
theorem identity_reconciliation_primary_wins_witness :
    ((([⟨1, none, none, none, none, some "A", none, .vnone⟩] : List PersonRow).map
        PersonRow.user_id).Nodup)
    ∧ (mainPeopleCombine
          [⟨1, none, none, none, none, some "A", none, .vnone⟩]
          [⟨1, none, none, none, none, some "B", none, .vnone⟩,
           ⟨2, none, none, none, none, some "C", none, .vnone⟩]).length = 1 + 1
    ∧ findById (mainPeopleCombine
          [⟨1, none, none, none, none, some "A", none, .vnone⟩]
          [⟨1, none, none, none, none, some "B", none, .vnone⟩,
           ⟨2, none, none, none, none, some "C", none, .vnone⟩]) 1
        = some ⟨1, none, none, none, none, some "A", none, .vnone⟩ := by
  refine ⟨by decide, ?_, ?_⟩
  · have h := (identity_reconciliation_primary_wins
      [⟨1, none, none, none, none, some "A", none, .vnone⟩]
      [⟨1, none, none, none, none, some "B", none, .vnone⟩,
       ⟨2, none, none, none, none, some "C", none, .vnone⟩] (by decide)).1
    rw [h]
    decide
  · have h := (identity_reconciliation_primary_wins
      [⟨1, none, none, none, none, some "A", none, .vnone⟩]
      [⟨1, none, none, none, none, some "B", none, .vnone⟩,
       ⟨2, none, none, none, none, some "C", none, .vnone⟩] (by decide)).2
        ⟨1, none, none, none, none, some "A", none, .vnone⟩ (by decide)
    exact h

/-! ### Transactions, transfers and the summary mergers

Monetary amounts (pandas floats) are modelled as rationals.  The IEEE
outcome of a float division whose denominator may be zero — which pandas
performs silently — is modelled by `FVal`. -/

/-- One line item of the transactions table (§3 *Transaction*):
`transaction_id` is not unique (one purchase may span several item lines);
`user_id` may be null after reference resolution. -/
structure TxRow where
  user_id : Option Nat
  transaction_id : Nat
  item : String
  store : String
  price : ℚ
  quantity : ℚ
deriving DecidableEq, Repr

/-- `Series.mode().iloc[0]` as used by `_get_favorite_store` /
`_get_favorite_item` (lines 311-341): pandas `mode` returns the most
frequent values sorted ascending, so `iloc[0]` is the least value among
those of maximal frequency; `None` on an empty series. -/
def modeOf (l : List String) : Option String :=
  (firstDedup l).foldl
    (fun acc v =>
      match acc with
      | none => some v
      | some w =>
          if l.count v > l.count w then some v
          else if l.count v = l.count w ∧ v < w then some v
          else some w)
    none

/-- Result row of `UserTransactionsMerger.merge` (lines 343-380). -/
structure UserTxSummaryRow where
  user_id : Nat
  total_spent : ℚ
  transaction_count : Nat
  favorite_store : Option String
  favorite_item : Option String
deriving DecidableEq, Repr

/-- The per-group aggregation of lines 361-366: for the group of rows with
`user_id == u`, `total_spent = sum(price)`, `transaction_count =
nunique(transaction_id)`, and the mode-based favorites. -/
def userAgg (tx : List TxRow) (u : Nat) : UserTxSummaryRow :=
  let g := tx.filter (fun r => r.user_id == some u)
  { user_id := u
    total_spent := (g.map TxRow.price).sum
    transaction_count := (g.map TxRow.transaction_id).dedup.length
    favorite_store := modeOf (g.map TxRow.store)
    favorite_item := modeOf (g.map TxRow.item) }

/-- The group keys of `groupby('user_id')`: the distinct non-null user ids
(pandas drops null group keys).  `groupby` emits them sorted; order is
immaterial here because the aggregate is consumed through a keyed left
join, so first-occurrence order is used. -/
def txUserIds (tx : List TxRow) : List Nat :=
  firstDedup (tx.filterMap TxRow.user_id)

/-- The row that the left join of line 372 plus the `fillna` of lines
375-376 produce for one person `u`: the aggregated row when `u` appears
among the transaction group keys, otherwise `total_spent=0`,
`transaction_count=0` with null favorites. -/
def userTxRowFor (tx : List TxRow) (u : Nat) : UserTxSummaryRow :=
  match ((txUserIds tx).map (fun v => userAgg tx v)).find? (fun a => a.user_id == u) with
  | some a => a
  | none =>
      { user_id := u, total_spent := 0, transaction_count := 0
        favorite_store := none, favorite_item := none }

/-- `UserTransactionsMerger.merge` (lines 343-380) for inputs carrying the
required columns: group by `user_id`, aggregate, then left-join against
`people_df[['user_id']]` and fill the numeric aggregates of users with no
transactions with 0 (`fillna(0)`, counts as ints); the favorites of such
users stay null. -/
def userTransactionsSummary (people : List Nat) (tx : List TxRow) :
    List UserTxSummaryRow :=
  people.map (fun u => userTxRowFor tx u)

/-- One row of the transfers ledger (§3 *Transfer*). -/
structure TransferRow where
  transfer_id : Nat
  sender_id : Nat
  recipient_id : Nat
  amount : ℚ
deriving DecidableEq, Repr

/-- Result row of `UserTransfersMerger.merge` (lines 404-468). -/
structure UserTransferSummaryRow where
  user_id : Nat
  total_sent : ℚ
  total_received : ℚ
  net_transferred : ℚ
  sent_count : Nat
  received_count : Nat
  transfer_count : Nat
deriving DecidableEq, Repr

/-- `groupby('sender_id')['amount'].sum()` looked up at `u`; an absent key
yields 0 (`Series.get(u, 0)` / `fillna(0)`). -/
def sentTotal (tf : List TransferRow) (u : Nat) : ℚ :=
  ((tf.filter (fun t => t.sender_id == u)).map TransferRow.amount).sum

/-- `groupby('sender_id')['transfer_id'].nunique()` looked up at `u`. -/
def sentCount (tf : List TransferRow) (u : Nat) : Nat :=
  ((tf.filter (fun t => t.sender_id == u)).map TransferRow.transfer_id).dedup.length

/-- `groupby('recipient_id')['amount'].sum()` looked up at `u`. -/
def receivedTotal (tf : List TransferRow) (u : Nat) : ℚ :=
  ((tf.filter (fun t => t.recipient_id == u)).map TransferRow.amount).sum

/-- `groupby('recipient_id')['transfer_id'].nunique()` looked up at `u`. -/
def receivedCount (tf : List TransferRow) (u : Nat) : Nat :=
  ((tf.filter (fun t => t.recipient_id == u)).map TransferRow.transfer_id).dedup.length

/-- `set(sender_id) | set(recipient_id)` (line 431); the rows built from it
are consumed through a keyed join, so first-occurrence order stands in for
the unordered Python set. -/
def transferUserIds (tf : List TransferRow) : List Nat :=
  firstDedup (tf.map TransferRow.sender_id ++ tf.map TransferRow.recipient_id)

/-- Lines 430-448: the per-user row of the intermediate result frame, for
`u` in `transferUserIds`: totals and distinct counts by role,
`net_transferred = received - sent` (line 435) and
`transfer_count = sent_count + received_count` (line 448). -/
def transferAggRow (tf : List TransferRow) (u : Nat) : UserTransferSummaryRow :=
  { user_id := u
    total_sent := sentTotal tf u
    total_received := receivedTotal tf u
    net_transferred := receivedTotal tf u - sentTotal tf u
    sent_count := sentCount tf u
    received_count := receivedCount tf u
    transfer_count := sentCount tf u + receivedCount tf u }

/-- The row that the left join of line 451 plus the `fillna` loops of lines
454-458 produce for one person `u`. -/
def userTransferRowFor (tf : List TransferRow) (u : Nat) : UserTransferSummaryRow :=
  match ((transferUserIds tf).map (fun v => transferAggRow tf v)).find?
      (fun r => r.user_id == u) with
  | some r => r
  | none =>
      { user_id := u, total_sent := 0, total_received := 0
        net_transferred := 0, sent_count := 0, received_count := 0
        transfer_count := 0 }

/-- `UserTransfersMerger.merge` (lines 404-468) for inputs carrying the
required columns: build the per-user rows over the union of senders and
recipients, then left-join against `people_df[['user_id']]` and fill all
six numeric columns of users with no transfers with 0 (lines 450-458). -/
def userTransfersSummary (people : List Nat) (tf : List TransferRow) :
    List UserTransferSummaryRow :=
  people.map (fun u => userTransferRowFor tf u)

/-! ### Item and store summaries -/

/-- Outcome of a pandas float computation for the cases arising here: a
finite value, or the IEEE specials that float division by zero produces
silently (`x/0 = inf` for `x>0`, `-inf` for `x<0`, `nan` for `0/0`). -/
inductive FVal : Type
  | num : ℚ → FVal
  | inf : FVal
  | negInf : FVal
  | nan : FVal
deriving DecidableEq, Repr

/-- Pandas/numpy float division of two finite values: no exception and no
warning surfaced; a zero denominator yields the IEEE specials. -/
def fdiv (a b : ℚ) : FVal :=
  if b ≠ 0 then .num (a / b)
  else if a > 0 then .inf
  else if a < 0 then .negInf
  else .nan

/-- numpy round-half-to-even on a rational (the rounding mode of
`Series.round`). -/
def roundHalfEven (q : ℚ) : ℤ :=
  let f := ⌊q⌋
  let r := q - f
  if r < 1/2 then f
  else if r > 1/2 then f + 1
  else if f % 2 = 0 then f else f + 1

/-- `Series.round(2)` on a finite value; `inf`/`nan` round to themselves. -/
def roundF2 : FVal → FVal
  | .num q => .num ((roundHalfEven (q * 100) : ℚ) / 100)
  | v => v

/-- Result row of `ItemSummaryMerger.merge` (lines 484-522). -/
structure ItemSummaryRow where
  item : String
  total_revenue : ℚ
  items_sold : ℚ
  transaction_count : Nat
  average_price : FVal
deriving DecidableEq, Repr

/-- Lines 502-509: the aggregation of the group of rows with `item == i`,
plus `average_price = (total_revenue / items_sold).round(2)` computed with
the unguarded float division. -/
def itemAgg (tx : List TxRow) (i : String) : ItemSummaryRow :=
  let g := tx.filter (fun r => r.item == i)
  { item := i
    total_revenue := (g.map TxRow.price).sum
    items_sold := (g.map TxRow.quantity).sum
    transaction_count := (g.map TxRow.transaction_id).dedup.length
    average_price := roundF2 (fdiv (g.map TxRow.price).sum (g.map TxRow.quantity).sum) }

/-- `ItemSummaryMerger.merge` (lines 484-522) for inputs carrying the
required columns: one row per distinct item observed in the transactions
(`groupby('item')` emits the keys sorted; the rows are consumed keyed by
item, so first-occurrence order is used). -/
def itemSummaryRows (tx : List TxRow) : List ItemSummaryRow :=
  (firstDedup (tx.map TxRow.item)).map (fun i => itemAgg tx i)

/-- `ItemSummaryMerger.merge` together with the merger's error list: in the
typed model the required columns always exist, so the guard of lines
495-499 never fires, no exception occurs, and the success path appends no
error message — in particular none for a zero `items_sold` denominator. -/
def itemSummaryMerge (tx : List TxRow) (errs : List String) :
    List ItemSummaryRow × List String :=
  (itemSummaryRows tx, errs)

/-- Result row of `StoreSummaryMerger.merge` (lines 572-625). -/
structure StoreSummaryRow where
  store : String
  total_revenue : ℚ
  items_sold : ℚ
  total_transactions : Nat
  average_transaction_value : FVal
  most_sold_item : Option String
  most_profitable_item : Option String
deriving DecidableEq, Repr

/-- `store_data.groupby('item')[measure].sum().idxmax()` (lines 538-570):
the groupby index is sorted ascending and `idxmax` returns the first index
attaining the maximum, i.e. the least item among those with maximal summed
measure; `None` for an empty selection. -/
def argmaxItemBy (g : List TxRow) (measure : TxRow → ℚ) : Option String :=
  ((firstDedup (g.map TxRow.item)).foldl
    (fun acc i =>
      let s := ((g.filter (fun r => r.item == i)).map measure).sum
      match acc with
      | none => some (i, s)
      | some (j, t) =>
          if s > t then some (i, s)
          else if s = t ∧ i < j then some (i, s)
          else some (j, t))
    none).map Prod.fst

/-- Lines 590-612: the aggregation of the group of rows with `store == s`,
with `average_transaction_value = (total_revenue /
total_transactions).round(2)` and the two arg-max items computed over the
store's rows. -/
def storeAgg (tx : List TxRow) (s : String) : StoreSummaryRow :=
  let g := tx.filter (fun r => r.store == s)
  { store := s
    total_revenue := (g.map TxRow.price).sum
    items_sold := (g.map TxRow.quantity).sum
    total_transactions := (g.map TxRow.transaction_id).dedup.length
    average_transaction_value :=
      roundF2 (fdiv (g.map TxRow.price).sum
        ((g.map TxRow.transaction_id).dedup.length : ℚ))
    most_sold_item := argmaxItemBy g TxRow.quantity
    most_profitable_item := argmaxItemBy g TxRow.price }

/-- `StoreSummaryMerger.merge` (lines 572-625) for inputs carrying the
required columns: one row per distinct store observed in the transactions. -/
def storeSummaryRows (tx : List TxRow) : List StoreSummaryRow :=
  (firstDedup (tx.map TxRow.store)).map (fun s => storeAgg tx s)

/-! ### Facts about the keyed left joins -/

theorem find?_key_map_of_mem {γ : Type} (f : Nat → γ) (uidOf : γ → Nat)
    (hf : ∀ v, uidOf (f v) = v) (ks : List Nat) (u : Nat) (hu : u ∈ ks) :
    (ks.map f).find? (fun a => uidOf a == u) = some (f u) := by
  induction ks with
  | nil => cases hu
  | cons v vs ih =>
    by_cases hv : v = u
    · subst hv
      rw [List.map_cons, List.find?_cons_of_pos _ (by simp [hf])]
    · rw [List.map_cons, List.find?_cons_of_neg _ (by simp [hf, hv])]
      exact ih (by rcases List.mem_cons.1 hu with h | h; exact absurd h.symm hv; exact h)

theorem find?_key_map_of_not_mem {γ : Type} (f : Nat → γ) (uidOf : γ → Nat)
    (hf : ∀ v, uidOf (f v) = v) (ks : List Nat) (u : Nat) (hu : u ∉ ks) :
    (ks.map f).find? (fun a => uidOf a == u) = none := by
  rw [List.find?_eq_none]
  intro a ha
  rcases List.mem_map.1 ha with ⟨v, hv, rfl⟩
  simp only [hf, beq_iff_eq]
  exact fun h => hu (h ▸ hv)

theorem user_id_userAgg (tx : List TxRow) (u : Nat) :
    (userAgg tx u).user_id = u := rfl

theorem user_id_transferAggRow (tf : List TransferRow) (u : Nat) :
    (transferAggRow tf u).user_id = u := rfl

theorem user_id_userTxRowFor (tx : List TxRow) (u : Nat) :
    (userTxRowFor tx u).user_id = u := by
  unfold userTxRowFor
  cases hfind : ((txUserIds tx).map (fun v => userAgg tx v)).find?
      (fun a => a.user_id == u) with
  | none => rfl
  | some a =>
    have := List.find?_some hfind
    simpa using this

theorem user_id_userTransferRowFor (tf : List TransferRow) (u : Nat) :
    (userTransferRowFor tf u).user_id = u := by
  unfold userTransferRowFor
  cases hfind : ((transferUserIds tf).map (fun v => transferAggRow tf v)).find?
      (fun r => r.user_id == u) with
  | none => rfl
  | some r =>
    have := List.find?_some hfind
    simpa using this

theorem userTxRowFor_of_no_activity (tx : List TxRow) (u : Nat)
    (h : ∀ r ∈ tx, r.user_id ≠ some u) :
    userTxRowFor tx u
      = { user_id := u, total_spent := 0, transaction_count := 0
          favorite_store := none, favorite_item := none } := by
  unfold userTxRowFor
  have hu : u ∉ txUserIds tx := by
    unfold txUserIds
    rw [mem_firstDedup]
    intro hmem
    rcases List.mem_filterMap.1 hmem with ⟨r, hr, hid⟩
    exact h r hr hid
  rw [find?_key_map_of_not_mem _ _ (user_id_userAgg tx) _ _ hu]

theorem userTransferRowFor_of_no_activity (tf : List TransferRow) (u : Nat)
    (h : ∀ t ∈ tf, t.sender_id ≠ u ∧ t.recipient_id ≠ u) :
    userTransferRowFor tf u
      = { user_id := u, total_sent := 0, total_received := 0
          net_transferred := 0, sent_count := 0, received_count := 0
          transfer_count := 0 } := by
  unfold userTransferRowFor
  have hu : u ∉ transferUserIds tf := by
    unfold transferUserIds
    rw [mem_firstDedup]
    intro hmem
    rcases List.mem_append.1 hmem with hs | hr
    · rcases List.mem_map.1 hs with ⟨t, ht, hid⟩
      exact (h t ht).1 hid
    · rcases List.mem_map.1 hr with ⟨t, ht, hid⟩
      exact (h t ht).2 hid
  rw [find?_key_map_of_not_mem _ _ (user_id_transferAggRow tf) _ _ hu]

/-- C4: for every identity table with unique `user_id`s and every
transactions/transfers input, each per-user summary contains exactly one
row per person in the identity table, and a person with zero related
records has all numeric aggregates and counts equal to 0 (never null). -/
theorem per_user_summary_completeness (people : List Nat) (tx : List TxRow)
    (tf : List TransferRow) (hnd : people.Nodup) :
    (userTransactionsSummary people tx).length = people.length
    ∧ (userTransfersSummary people tf).length = people.length
    ∧ (∀ u ∈ people,
        (userTransactionsSummary people tx).countP (fun r => r.user_id == u) = 1)
    ∧ (∀ u ∈ people,
        (userTransfersSummary people tf).countP (fun r => r.user_id == u) = 1)
    ∧ (∀ u ∈ people, (∀ r ∈ tx, r.user_id ≠ some u) →
        (userTransactionsSummary people tx).find? (fun r => r.user_id == u)
          = some { user_id := u, total_spent := 0, transaction_count := 0
                   favorite_store := none, favorite_item := none })
    ∧ (∀ u ∈ people, (∀ t ∈ tf, t.sender_id ≠ u ∧ t.recipient_id ≠ u) →
        (userTransfersSummary people tf).find? (fun r => r.user_id == u)
          = some { user_id := u, total_sent := 0, total_received := 0
                   net_transferred := 0, sent_count := 0, received_count := 0
                   transfer_count := 0 }) := by
  refine ⟨List.length_map _ _, List.length_map _ _, ?_, ?_, ?_, ?_⟩
  · intro u hu
    unfold userTransactionsSummary
    rw [List.countP_map]
    have : ((fun r : UserTxSummaryRow => r.user_id == u) ∘ fun v => userTxRowFor tx v)
        = (fun v => v == u) := by
      funext v; simp [Function.comp, user_id_userTxRowFor]
    rw [this, ← List.count_eq_countP]
    exact List.count_eq_one_of_mem hnd hu
  · intro u hu
    unfold userTransfersSummary
    rw [List.countP_map]
    have : ((fun r : UserTransferSummaryRow => r.user_id == u) ∘ fun v => userTransferRowFor tf v)
        = (fun v => v == u) := by
      funext v; simp [Function.comp, user_id_userTransferRowFor]
    rw [this, ← List.count_eq_countP]
    exact List.count_eq_one_of_mem hnd hu
  · intro u hu hz
    unfold userTransactionsSummary
    rw [find?_key_map_of_mem _ _ (user_id_userTxRowFor tx) _ _ hu,
      userTxRowFor_of_no_activity tx u hz]
  · intro u hu hz
    unfold userTransfersSummary
    rw [find?_key_map_of_mem _ _ (user_id_userTransferRowFor tf) _ _ hu,
      userTransferRowFor_of_no_activity tf u hz]

/-- Witness for the completeness theorem: identity table `[1, 2]`, one
transaction and one transfer both belonging to user 1; user 2 gets a
zero-filled row in both summaries. -/
theorem per_user_summary_completeness_witness :
    ([1, 2] : List Nat).Nodup
    ∧ (userTransactionsSummary [1, 2] [⟨some 1, 10, "A", "S", 5, 1⟩]).length = 2
    ∧ (userTransactionsSummary [1, 2] [⟨some 1, 10, "A", "S", 5, 1⟩]).find?
        (fun r => r.user_id == 2)
        = some { user_id := 2, total_spent := 0, transaction_count := 0
                 favorite_store := none, favorite_item := none }
    ∧ (userTransfersSummary [1, 2] [⟨7, 1, 1, 5⟩]).find? (fun r => r.user_id == 2)
        = some { user_id := 2, total_sent := 0, total_received := 0
                 net_transferred := 0, sent_count := 0, received_count := 0
                 transfer_count := 0 } := by
  have h := per_user_summary_completeness [1, 2] [⟨some 1, 10, "A", "S", 5, 1⟩]
    [⟨7, 1, 1, 5⟩] (by decide)
  exact ⟨by decide, h.1,
    h.2.2.2.2.1 2 (by decide) (by intro r hr; fin_cases hr; decide),
    h.2.2.2.2.2 2 (by decide) (by intro t ht; fin_cases ht; decide)⟩

/-- The §8 example transfers: transfer 1 = user 1 sends 50 to user 2,
transfer 2 = user 2 sends 20 to user 1. -/
def exampleTransfers : List TransferRow :=
  [⟨1, 1, 2, 50⟩, ⟨2, 2, 1, 20⟩]

/-- The expected summary row for user 1 on `exampleTransfers`:
total_sent 50, total_received 20, net −30, sent/received counts 1,
transfer_count 2. -/
def exampleTransferRow1 : UserTransferSummaryRow := ⟨1, 50, 20, -30, 1, 1, 2⟩

/-- The expected summary row for user 2 on `exampleTransfers`. -/
def exampleTransferRow2 : UserTransferSummaryRow := ⟨2, 20, 50, 30, 1, 1, 2⟩

/-- C6: every row of the per-user transfer summary satisfies
`net_transferred = total_received - total_sent` and
`transfer_count = sent_count + received_count`; in the §8 example (user 1
sends 50 to user 2, user 2 sends 20 back), user 1 gets
`net_transferred = -30` with `sent_count = 1`, `received_count = 1`,
`transfer_count = 2`, and user 2 gets `net_transferred = 30`. -/
theorem transfer_net_balance :
    (∀ (people : List Nat) (tf : List TransferRow),
      ∀ r ∈ userTransfersSummary people tf,
        r.net_transferred = r.total_received - r.total_sent
        ∧ r.transfer_count = r.sent_count + r.received_count)
    ∧ userTransfersSummary [1, 2] exampleTransfers
        = [exampleTransferRow1, exampleTransferRow2] := by
  constructor
  · intro people tf r hr
    rcases List.mem_map.1 hr with ⟨u, _, rfl⟩
    unfold userTransferRowFor
    cases hfind : ((transferUserIds tf).map (fun v => transferAggRow tf v)).find?
        (fun a => a.user_id == u) with
    | none => exact ⟨by norm_num, rfl⟩
    | some a =>
      rcases List.mem_map.1 (List.mem_of_find?_eq_some hfind) with ⟨v, _, rfl⟩
      exact ⟨rfl, rfl⟩
  · norm_num [userTransfersSummary, userTransferRowFor, transferUserIds, firstDedup,
      dedupByKey, transferAggRow, sentTotal, receivedTotal, sentCount, receivedCount,
      exampleTransfers, exampleTransferRow1, exampleTransferRow2,
      List.filter_cons, List.find?_cons]
    rfl

/-- Witness for the relational part of the transfer theorem, at the §8
example input and user 1's row: `-30 = 20 - 50` and `2 = 1 + 1`. -/
theorem transfer_net_balance_witness :
    exampleTransferRow1 ∈ userTransfersSummary [1, 2] exampleTransfers
    ∧ exampleTransferRow1.net_transferred
        = exampleTransferRow1.total_received - exampleTransferRow1.total_sent
    ∧ exampleTransferRow1.transfer_count
        = exampleTransferRow1.sent_count + exampleTransferRow1.received_count := by
  have hm : exampleTransferRow1 ∈ userTransfersSummary [1, 2] exampleTransfers := by
    rw [transfer_net_balance.2]
    exact List.mem_cons_self _ _
  have h := transfer_net_balance.1 [1, 2] exampleTransfers _ hm
  exact ⟨hm, h.1, h.2⟩

/-- Concrete two-line transaction: `transaction_id = 100` split across two
item lines of user 7 at store `"S"`. -/
def splitTx : List TxRow :=
  [⟨some 7, 100, "A", "S", 5, 1⟩, ⟨some 7, 100, "B", "S", 7, 1⟩]

/-- C5: all transaction counts in the per-user, per-item and per-store
summaries are distinct counts over `transaction_id` (the cardinality of the
set of ids in the group), not row counts: on the two-line single
transaction `splitTx`, every involved user, item and store gets
`transaction_count = 1` even though there are 2 rows. -/
theorem transaction_counts_are_distinct_counts :
    (∀ (tx : List TxRow) (u : Nat),
      (userAgg tx u).transaction_count
        = ((tx.filter (fun r => r.user_id == some u)).map TxRow.transaction_id).toFinset.card)
    ∧ (∀ (tx : List TxRow) (i : String),
      (itemAgg tx i).transaction_count
        = ((tx.filter (fun r => r.item == i)).map TxRow.transaction_id).toFinset.card)
    ∧ (∀ (tx : List TxRow) (s : String),
      (storeAgg tx s).total_transactions
        = ((tx.filter (fun r => r.store == s)).map TxRow.transaction_id).toFinset.card)
    ∧ splitTx.length = 2
    ∧ (userTransactionsSummary [7] splitTx).map
        (fun r => (r.user_id, r.transaction_count)) = [(7, 1)]
    ∧ (itemSummaryRows splitTx).map (fun r => (r.item, r.transaction_count))
        = [("A", 1), ("B", 1)]
    ∧ (storeSummaryRows splitTx).map (fun r => (r.store, r.total_transactions))
        = [("S", 1)] := by
  refine ⟨?_, ?_, ?_, rfl, by decide, by decide, by decide⟩
  · intro tx u
    exact (List.card_toFinset _).symm
  · intro tx i
    exact (List.card_toFinset _).symm
  · intro tx s
    exact (List.card_toFinset _).symm

theorem filterMap_user_id_filter_isSome (tx : List TxRow) :
    (tx.filter (fun r => r.user_id.isSome)).filterMap TxRow.user_id
      = tx.filterMap TxRow.user_id := by
  induction tx with
  | nil => rfl
  | cons r rs ih =>
    cases h : r.user_id with
    | none => simp [List.filter_cons, List.filterMap_cons, h, ih]
    | some v => simp [List.filter_cons, List.filterMap_cons, h, ih]

theorem filter_user_eq_filter_isSome (tx : List TxRow) (u : Nat) :
    (tx.filter (fun r => r.user_id.isSome)).filter (fun r => r.user_id == some u)
      = tx.filter (fun r => r.user_id == some u) := by
  rw [List.filter_filter]
  refine List.filter_congr (fun r _ => ?_)
  cases h : r.user_id <;> simp [h]

theorem userTxRowFor_filter_isSome (tx : List TxRow) (u : Nat) :
    userTxRowFor (tx.filter (fun r => r.user_id.isSome)) u = userTxRowFor tx u := by
  have h1 : txUserIds (tx.filter (fun r => r.user_id.isSome)) = txUserIds tx := by
    unfold txUserIds
    rw [filterMap_user_id_filter_isSome]
  have h2 : (fun v => userAgg (tx.filter (fun r => r.user_id.isSome)) v)
      = (fun v => userAgg tx v) := by
    funext v
    unfold userAgg
    rw [filter_user_eq_filter_isSome]
  unfold userTxRowFor
  rw [h1, h2]

/-- A transaction line whose `user_id` is null (unresolved after reference
resolution): item `"W"` at store `"S"`, price 5, quantity 1. -/
def exampleNullUserTx : List TxRow := [⟨none, 1, "W", "S", 5, 1⟩]

/-- C9: rows with null `user_id` are entirely excluded from the per-user
transaction summary (`groupby('user_id')` drops null keys, so the summary
over `tx` equals the summary over `tx` restricted to non-null `user_id`),
yet the same rows still contribute fully to the per-item and per-store
summaries, as the concrete null-user line shows: user 7's summary row is
all zeros while item `"W"` and store `"S"` carry its full revenue. -/
theorem null_user_rows_excluded_from_user_summary :
    (∀ (people : List Nat) (tx : List TxRow),
      userTransactionsSummary people tx
        = userTransactionsSummary people (tx.filter (fun r => r.user_id.isSome)))
    ∧ userTransactionsSummary [7] exampleNullUserTx
        = [⟨7, 0, 0, none, none⟩]
    ∧ itemSummaryRows exampleNullUserTx = [⟨"W", 5, 1, 1, .num 5⟩]
    ∧ storeSummaryRows exampleNullUserTx
        = [⟨"S", 5, 1, 1, .num 5, some "W", some "W"⟩] := by
  refine ⟨?_, ?_, ?_, ?_⟩
  · intro people tx
    unfold userTransactionsSummary
    congr 1
    funext u
    exact (userTxRowFor_filter_isSome tx u).symm
  · decide
  · norm_num [itemSummaryRows, itemAgg, firstDedup, dedupByKey, exampleNullUserTx,
      roundF2, fdiv, roundHalfEven, List.filter_cons]
  · norm_num [storeSummaryRows, storeAgg, argmaxItemBy, firstDedup, dedupByKey,
      exampleNullUserTx, roundF2, fdiv, roundHalfEven, List.filter_cons]

/-! ### Reference resolution (`UserReferencesMerger`, lines 155-293)

Column presence matters here (the raw contact columns are dropped, and a
missing `user_id` column is created), so the promotions and transactions
frames carry explicit column flags; a row field is meaningful only when its
column flag is `true`. -/

/-- `people_df.set_index('email')['user_id'].to_dict()` (line 193) looked up
at `e`: dictionary insertion order makes the *last* person with a given
email win, hence the reversed search.  People with a null email contribute
only an unmatchable NaN key. -/
def emailToUserId (people : List PersonRow) (e : String) : Option Nat :=
  (people.reverse.find? (fun r => r.email == some e)).map PersonRow.user_id

/-- `people_df.set_index('phone')['user_id'].to_dict()` (lines 205, 248)
looked up at `t`; last person with the phone wins. -/
def phoneToUserId (people : List PersonRow) (t : String) : Option Nat :=
  (people.reverse.find? (fun r => r.phone == some t)).map PersonRow.user_id

/-- One row of the promotions frame: possibly-null direct key and raw
contact fields. -/
structure PromoRow where
  user_id : Option Nat
  client_email : Option String
  telephone : Option String
deriving DecidableEq, Repr

/-- The promotions frame with its column-presence flags. -/
structure PromosDF where
  hasUserId : Bool
  hasClientEmail : Bool
  hasTelephone : Bool
  rows : List PromoRow
deriving DecidableEq, Repr

/-- The per-row effect of `_add_user_references_to_promotions` on the
resolution path (lines 187-215): initialize `user_id` if the column is
absent; if the `client_email` column exists, fill `user_id` from the email
map (lines 195-197); then, *only for rows whose `user_id` is still null*
(the `isna` mask of line 208), fill from the phone map (lines 209-211).
Each `at[index, 'user_id']` write touches only its own row, so the two
loops act row-wise. -/
def promoRowResolve (people : List PersonRow) (hasUID hasCE hasTel : Bool)
    (r : PromoRow) : PromoRow :=
  let r0 := if hasUID then r else { r with user_id := none }
  let r1 :=
    if hasCE then
      match r0.client_email with
      | some e =>
          match emailToUserId people e with
          | some u => { r0 with user_id := some u }
          | none => r0
      | none => r0
    else r0
  if hasTel ∧ r1.user_id = none then
    match r1.telephone with
    | some t =>
        match phoneToUserId people t with
        | some u => { r1 with user_id := some u }
        | none => r1
    | none => r1
  else r1

/-- `_add_user_references_to_promotions` (lines 173-222).  If the `user_id`
column exists and is not entirely null, the frame is returned unchanged —
raw contact columns included (lines 183-185).  Otherwise every row is
resolved and the `client_email` / `telephone` columns are dropped (lines
200, 214; they are absent from the output whether they were dropped or
never existed — the identity table always carries `email` and `phone`
columns, so the people-side guards of lines 192 and 204 hold). -/
def addUserReferencesToPromotions (people : List PersonRow) (p : PromosDF) :
    PromosDF :=
  if p.hasUserId ∧ ¬ p.rows.all (fun r => r.user_id.isNone) then p
  else
    { hasUserId := true
      hasClientEmail := false
      hasTelephone := false
      rows := p.rows.map
        (promoRowResolve people p.hasUserId p.hasClientEmail p.hasTelephone) }

/-- One row of the transactions frame as seen by reference resolution. -/
structure TxnRefRow where
  user_id : Option Nat
  phone : Option String
deriving DecidableEq, Repr

/-- The transactions frame with its column-presence flags. -/
structure TxnsDF where
  hasUserId : Bool
  hasPhone : Bool
  rows : List TxnRefRow
deriving DecidableEq, Repr

/-- The per-row effect of `_add_user_references_to_transactions` on the
resolution path (lines 242-256): initialize `user_id` if absent, then fill
it from the phone map (the loop of lines 250-252 has no `isna` mask). -/
def txnRowResolve (people : List PersonRow) (hasUID : Bool) (hasPhone : Bool)
    (r : TxnRefRow) : TxnRefRow :=
  let r0 := if hasUID then r else { r with user_id := none }
  if hasPhone then
    match r0.phone with
    | some t =>
        match phoneToUserId people t with
        | some u => { r0 with user_id := some u }
        | none => r0
    | none => r0
  else r0

/-- `_add_user_references_to_transactions` (lines 224-263) for a provided
transactions frame (the `None` input case of lines 231-233 does not arise
at the call site, line 282-283): early return if `user_id` exists and is
not entirely null; otherwise resolve every row and drop the `phone` column
(line 255). -/
def addUserReferencesToTransactions (people : List PersonRow) (t : TxnsDF) :
    TxnsDF :=
  if t.hasUserId ∧ ¬ t.rows.all (fun r => r.user_id.isNone) then t
  else
    { hasUserId := true
      hasPhone := false
      rows := t.rows.map (txnRowResolve people t.hasUserId t.hasPhone) }

/-- Identity table for the resolution examples: user 5 owns email
`"a@x"`, user 9 owns phone `"123"`. -/
def examplePeople : List PersonRow :=
  [⟨5, none, none, some "a@x", none, none, none, .vnone⟩,
   ⟨9, none, none, none, some "123", none, none, .vnone⟩]

/-- A promotions frame that already carries a populated `user_id` column
*and* still has a `client_email` column. -/
def alreadyResolvedPromos : PromosDF :=
  { hasUserId := true, hasClientEmail := true, hasTelephone := false
    rows := [⟨some 5, some "a@x", none⟩] }

/-- C3 counterexample: a reference-resolution run over a dependent table
whose `user_id` is already populated returns the table unchanged (lines
183-185), so its rows retain the raw `client_email` column — refuting "no
row of the resolved output retains a raw contact column" for *every* run. -/
theorem reference_resolution_counterexample :
    addUserReferencesToPromotions examplePeople alreadyResolvedPromos
      = alreadyResolvedPromos
    ∧ alreadyResolvedPromos.hasClientEmail = true := by
  decide

/-- C3 amended: for every run in which resolution is actually performed
(the `user_id` column is absent or entirely null, so the early return of
lines 183-185 / 238-240 is not taken), no raw contact column survives —
`client_email` and `telephone` are dropped from promotions and `phone` from
transactions — and a `user_id` set by the email lookup is never overwritten
by the later phone lookup, even when the row's phone maps to a different
identity. -/
theorem reference_resolution_amended (people : List PersonRow) (p : PromosDF)
    (t : TxnsDF)
    (hp : ¬(p.hasUserId ∧ ¬ p.rows.all (fun r => r.user_id.isNone)))
    (ht : ¬(t.hasUserId ∧ ¬ t.rows.all (fun r => r.user_id.isNone))) :
    (addUserReferencesToPromotions people p).hasClientEmail = false
    ∧ (addUserReferencesToPromotions people p).hasTelephone = false
    ∧ (addUserReferencesToTransactions people t).hasPhone = false
    ∧ (addUserReferencesToPromotions people p).rows
        = p.rows.map
            (promoRowResolve people p.hasUserId p.hasClientEmail p.hasTelephone)
    ∧ (∀ (r : PromoRow) (e : String) (u : Nat),
        p.hasClientEmail = true → r.client_email = some e →
        emailToUserId people e = some u →
        (promoRowResolve people p.hasUserId p.hasClientEmail p.hasTelephone r).user_id
          = some u) := by
  refine ⟨?_, ?_, ?_, ?_, ?_⟩
  · unfold addUserReferencesToPromotions
    rw [if_neg hp]
  · unfold addUserReferencesToPromotions
    rw [if_neg hp]
  · unfold addUserReferencesToTransactions
    rw [if_neg ht]
  · unfold addUserReferencesToPromotions
    rw [if_neg hp]
  · intro r e u hce he hmap
    cases hu : p.hasUserId <;>
      simp [promoRowResolve, hce, hu, he, hmap]

/-- A promotions frame with no `user_id` column whose single row matches
user 5 by email and user 9 by phone. -/
def unresolvedPromos : PromosDF :=
  { hasUserId := false, hasClientEmail := true, hasTelephone := true
    rows := [⟨none, some "a@x", some "123"⟩] }

/-- A transactions frame with no `user_id` column and a raw `phone`
column. -/
def unresolvedTxns : TxnsDF :=
  { hasUserId := false, hasPhone := true, rows := [⟨none, some "123"⟩] }

/-- Witness for the amended resolution theorem: on the concrete frames the
raw contact columns are gone, and the row whose email resolves to user 5
keeps `user_id = 5` although its phone maps to user 9. -/
theorem reference_resolution_amended_witness :
    (addUserReferencesToPromotions examplePeople unresolvedPromos).hasClientEmail
        = false
    ∧ (addUserReferencesToPromotions examplePeople unresolvedPromos).hasTelephone
        = false
    ∧ (addUserReferencesToTransactions examplePeople unresolvedTxns).hasPhone
        = false
    ∧ (promoRowResolve examplePeople unresolvedPromos.hasUserId
        unresolvedPromos.hasClientEmail unresolvedPromos.hasTelephone
        ⟨none, some "a@x", some "123"⟩).user_id = some 5
    ∧ phoneToUserId examplePeople "123" = some 9 := by
  have h := reference_resolution_amended examplePeople unresolvedPromos
    unresolvedTxns (by decide) (by decide)
  exact ⟨h.1, h.2.1, h.2.2.1,
    h.2.2.2.2 ⟨none, some "a@x", some "123"⟩ "a@x" 5 (by decide) rfl (by decide),
    by decide⟩

/-! ### `UserReferencesMerger.merge` with its error list (lines 265-293) -/

/-- The warnings that `_add_user_references_to_promotions` records via
`_add_error` (lines 218-220): the count of rows left with a null `user_id`
after resolution; nothing on the early-return path (the count check of line
218 is only reached after resolution). -/
def promotionsResolutionWarnings (people : List PersonRow) (p : PromosDF) :
    List String :=
  if p.hasUserId ∧ ¬ p.rows.all (fun r => r.user_id.isNone) then []
  else
    let k := (p.rows.map
      (promoRowResolve people p.hasUserId p.hasClientEmail p.hasTelephone)).countP
        (fun r => r.user_id.isNone)
    if k > 0 then ["Could not find user_id for " ++ toString k ++ " promotions"]
    else []

/-- The warnings of `_add_user_references_to_transactions` (lines 258-261). -/
def transactionsResolutionWarnings (people : List PersonRow) (t : TxnsDF) :
    List String :=
  if t.hasUserId ∧ ¬ t.rows.all (fun r => r.user_id.isNone) then []
  else
    let k := (t.rows.map (txnRowResolve people t.hasUserId t.hasPhone)).countP
        (fun r => r.user_id.isNone)
    if k > 0 then ["Could not find user_id for " ++ toString k ++ " transactions"]
    else []

/-- The dictionary returned by `UserReferencesMerger.merge`: the happy path
omits the `'transactions'` key when no transactions frame was provided,
and the catch path returns the stored (possibly `None`) frame under that
key; both are modelled by an `Option`. -/
structure UserRefsOutput where
  promotions : PromosDF
  transactions : Option TxnsDF
deriving DecidableEq, Repr

/-- `UserReferencesMerger.merge` (lines 265-293) together with the
merger's error-list state (`self.merge_errors`, readable through
`get_errors`, line 47-54).  An unexpected exception inside the `try` body
is modelled by the abstract outcome `exc : Option String` (`some m` =
an exception with message `m` occurred): the `except` clause of lines
289-293 returns the stored input frames unchanged and `_add_error` appends
`'Unexpected error in user reference merging: ' + str(e)`. -/
def userReferencesMergerMerge (people : List PersonRow) (promos : PromosDF)
    (txns : Option TxnsDF) (exc : Option String) (errs : List String) :
    UserRefsOutput × List String :=
  match exc with
  | some m =>
      ({ promotions := promos, transactions := txns },
       errs ++ ["Unexpected error in user reference merging: " ++ m])
  | none =>
      match txns with
      | some t =>
          ({ promotions := addUserReferencesToPromotions people promos
             transactions := some (addUserReferencesToTransactions people t) },
           errs ++ promotionsResolutionWarnings people promos
                ++ transactionsResolutionWarnings people t)
      | none =>
          ({ promotions := addUserReferencesToPromotions people promos
             transactions := none },
           errs ++ promotionsResolutionWarnings people promos)

/-- C10: an unexpected exception during user-reference merging never
propagates: `merge` returns its original promotions and transactions
input frames unchanged and appends the error message to the error list
returned by `get_errors` — while a normal (no-exception) run does change
the promotions frame, showing the passthrough is specific to the catch
path. -/
theorem user_references_merge_exception_passthrough :
    (∀ (people : List PersonRow) (promos : PromosDF) (txns : Option TxnsDF)
        (m : String) (errs : List String),
      userReferencesMergerMerge people promos txns (some m) errs
        = ({ promotions := promos, transactions := txns },
           errs ++ ["Unexpected error in user reference merging: " ++ m]))
    ∧ (userReferencesMergerMerge examplePeople unresolvedPromos
        (some unresolvedTxns) none []).1.promotions ≠ unresolvedPromos := by
  exact ⟨fun _ _ _ _ _ => rfl, by decide⟩

/-! ### `MainDataMerger.merge` (lines 628-715) -/

set_option linter.unusedVariables false in
/-- `MainDataMerger.merge` (lines 657-715): despite the class storing the
promotions, transfers and transactions frames and an output directory
(lines 649-655), the method body only performs the people merge of lines
664-709 and returns a dictionary with the single key `'people'`; no other
merger is invoked and no other output is produced. -/
def mainDataMergerMerge (people_json_df people_yml_df : List PersonRow)
    (promotions_df : PromosDF) (transfers_df : List TransferRow)
    (transactions_df : Option (List TxRow)) : List (String × List PersonRow) :=
  [("people", mainPeopleCombine people_json_df people_yml_df)]

/-- C1 evaluation: on a full concrete input set, the top-level `merge`
returns a mapping whose only key is `'people'`; none of the other six
recognized output names is present. -/
theorem main_merge_returns_only_people :
    (mainDataMergerMerge
        [⟨5, none, none, some "a@x", none, none, none, .vnone⟩]
        [⟨9, none, none, none, some "123", none, none, .vnone⟩]
        unresolvedPromos exampleTransfers (some splitTx)).map Prod.fst
      = ["people"]
    ∧ ∀ name ∈ ["promotions", "transactions", "user_transactions",
        "user_transfers", "item_summary", "store_summary"],
      name ∉ (mainDataMergerMerge
        [⟨5, none, none, some "a@x", none, none, none, .vnone⟩]
        [⟨9, none, none, none, some "123", none, none, .vnone⟩]
        unresolvedPromos exampleTransfers (some splitTx)).map Prod.fst := by
  refine ⟨rfl, ?_⟩
  intro name hname
  fin_cases hname <;> decide

/-! ### The unguarded `average_price` division (C7) -/

/-- An item whose lines sum to quantity 0 but revenue 30. -/
def zeroQuantityTx : List TxRow := [⟨some 1, 1, "X", "S", 30, 0⟩]

/-- C7 evaluation at the failing input: for an item with `items_sold = 0`
and positive revenue, `ItemSummaryMerger.merge` computes
`average_price = +inf` (the silent IEEE outcome of the unguarded float
division of line 509) and records no warning — the result is not a
"no value" marker and no arithmetic-degenerate warning is appended. -/
theorem item_average_price_division_unguarded :
    itemSummaryMerge zeroQuantityTx []
      = ([⟨"X", 30, 0, 1, .inf⟩], [])
    ∧ FVal.inf ≠ FVal.nan := by
  constructor
  · norm_num [itemSummaryMerge, itemSummaryRows, itemAgg, firstDedup, dedupByKey,
      zeroQuantityTx, roundF2, fdiv, List.filter_cons]
  · decide

/-! ### Input mutation by `PeopleMerger.merge` (C8)

Whether a component mutates a caller's frame is observable in its column
list, so the person frames here carry an explicit column list; by
convention a field of an absent column is null (`df[col] = None` adds the
column with all-null values, matching that convention). -/

/-- The declared common schema (lines 121-124 / 687-690). -/
def commonColumns : List String :=
  ["user_id", "first_name", "last_name", "email", "phone",
   "city", "country", "devices"]

/-- A person frame together with its column list. -/
structure PeopleFrame where
  cols : List String
  rows : List PersonRow
deriving DecidableEq, Repr

/-- Lines 127-132 / 693-698: every common column missing from the frame is
appended with all-null values (`df[col] = None`); under the null-field
convention the typed rows are unchanged. -/
def ensureCommonColumns (df : PeopleFrame) : PeopleFrame :=
  { cols := df.cols ++ commonColumns.filter (fun c => ¬ df.cols.contains c)
    rows := df.rows }

/-- `pd.merge(json, yml, on=common_columns, how='outer')` (lines 136-142)
for frames over exactly the common schema: joining on *all* columns pairs
each left row with the equal right rows (keeping one copy of the shared
column values per matched pair), keeps unmatched left rows, and appends
unmatched right rows. -/
def peopleOuterJoinRows (xs ys : List PersonRow) : List PersonRow :=
  (xs.flatMap (fun x =>
    if ys.contains x then List.replicate (ys.count x) x else [x]))
  ++ ys.filter (fun y => ¬ xs.contains y)

/-- `PeopleMerger.merge` (lines 102-152): the schema completion of lines
127-132 is applied **directly to the stored input frames** (no copy is
taken), then the outer join is built.  Returns (output frame, the stored
JSON frame after the call, the stored YAML frame after the call). -/
def peopleMergerMerge (json yml : PeopleFrame) :
    PeopleFrame × PeopleFrame × PeopleFrame :=
  let json' := ensureCommonColumns json
  let yml' := ensureCommonColumns yml
  ({ cols := commonColumns, rows := peopleOuterJoinRows json'.rows yml'.rows },
   json', yml')

/-- `MainDataMerger.merge` (lines 668-676) copies the stored frames before
any mutation (`people_json_df = self.people_json_df.copy()`), so the
normalization and column completion of lines 671-698 touch only the copies:
the stored input frames after `merge` returns are the frames passed in. -/
def mainDataMergerInputsAfterMerge (json yml : PeopleFrame) :
    PeopleFrame × PeopleFrame :=
  (json, yml)

/-- A JSON person frame missing the `city` column. -/
def jsonFrameMissingCity : PeopleFrame :=
  { cols := ["user_id", "first_name", "last_name", "email", "phone",
             "country", "devices"]
    rows := [⟨1, none, none, none, none, none, none, .vnone⟩] }

/-- A YAML person frame carrying the full common schema. -/
def ymlFrameFull : PeopleFrame :=
  { cols := commonColumns
    rows := [⟨2, none, none, none, none, none, none, .vnone⟩] }

/-- C8 counterexample: `PeopleMerger.merge` mutates its caller's table —
run on a JSON frame lacking the `city` column, the stored JSON frame after
the call differs from the one passed in: the `city` column has been added
to it in place. -/
theorem people_merger_mutates_input :
    (peopleMergerMerge jsonFrameMissingCity ymlFrameFull).2.1
      ≠ jsonFrameMissingCity
    ∧ (peopleMergerMerge jsonFrameMissingCity ymlFrameFull).2.1.cols
      = jsonFrameMissingCity.cols ++ ["city"] := by
  decide

/-- C8 amended: components leave their inputs unchanged except
`PeopleMerger.merge`, which adds missing schema columns to its input
frames in place; when both person frames already carry every common
column, `PeopleMerger.merge` also leaves its inputs unchanged, and
`MainDataMerger.merge` always does, since it copies before mutating. -/
theorem components_preserve_inputs (json yml : PeopleFrame)
    (hj : ∀ c ∈ commonColumns, c ∈ json.cols)
    (hy : ∀ c ∈ commonColumns, c ∈ yml.cols) :
    (peopleMergerMerge json yml).2.1 = json
    ∧ (peopleMergerMerge json yml).2.2 = yml
    ∧ (∀ j y : PeopleFrame, mainDataMergerInputsAfterMerge j y = (j, y)) := by
  have hens : ∀ df : PeopleFrame, (∀ c ∈ commonColumns, c ∈ df.cols) →
      ensureCommonColumns df = df := by
    intro df hdf
    unfold ensureCommonColumns
    rw [List.filter_eq_nil_iff.2 (fun c hc => by simpa using hdf c hc),
      List.append_nil]
  exact ⟨hens json hj, hens yml hy, fun _ _ => rfl⟩

/-- Witness for the preservation theorem at two full-schema frames. -/
theorem components_preserve_inputs_witness :
    (peopleMergerMerge ymlFrameFull ymlFrameFull).2.1 = ymlFrameFull
    ∧ (peopleMergerMerge ymlFrameFull ymlFrameFull).2.2 = ymlFrameFull := by
  have h := components_preserve_inputs ymlFrameFull ymlFrameFull
    (fun c hc => hc) (fun c hc => hc)
  exact ⟨h.1, h.2.1⟩

end Venmito
